import Mathlib

/-!
Verification of the db-builder schema-graph store (`src/store/dbStore.ts`)
and the SQL generator (`src/lib/sqlGenerator.ts`) against their
natural-language specification.

The store is a zustand store over plain data; we embed it as pure
functions on an explicit `DBState`.  Sources of nondeterminism in the
source are made explicit inputs:
  * `uuid()` draws are modelled by a counter `Gen`; distinct draws give
    distinct id strings, as the uuid library guarantees.
  * `Math.random()` positions of `addTable` become explicit `x y` inputs.
  * `new Date().toISOString()` in the SQL generator becomes an explicit
    `now : String` input.
  * `console.warn` in `commitRelation` is modelled as a returned list of
    warning strings.
JavaScript optional fields become `Option`/`Bool`-with-default fields;
`{...obj}` shallow copies are value-identity and are dropped.
-/

namespace DB

structure ColRef where
  tableId : String
  columnId : String
  deriving DecidableEq, Repr

/-- Column record (`Column` in dbStore.ts).  The boolean flags are
optional in the source (absent traeted as false); `references` is the
optional FK target.  `enumValues`/`defaultVal` are ad-hoc extra fields
the SQL generator reads via `(col as any)`. -/
structure Column where
  id : String
  name : String
  type : String
  isPrimary : Bool := false
  isForeign : Bool := false
  isUnique : Bool := false
  isNullable : Bool := false
  references : Option ColRef := none
  enumValues : Option (List String) := none
  defaultVal : Option String := none
  deriving DecidableEq, Repr

structure DBTable where
  id : String
  name : String
  x : Int := 0
  y : Int := 0
  columns : List Column
  deriving DecidableEq, Repr

inductive Cardinality where
  | oneToOne
  | oneToMany
  | manyToMany
  deriving DecidableEq, Repr

inductive DeleteRule where
  | cascade
  | setNull
  | restrict
  deriving DecidableEq, Repr

inductive UpdateRule where
  | cascade
  | restrict
  deriving DecidableEq, Repr

/-- Relation record; `from` is a Lean keyword so the field is written
with guillemets. -/
structure Relation where
  id : String
  «from» : ColRef
  «to» : ColRef
  cardinality : Option Cardinality := none
  deleteRule : Option DeleteRule := none
  updateRule : Option UpdateRule := none
  deriving DecidableEq, Repr

/-- One undo/redo snapshot: a deep copy of `{tables, relations}`. -/
structure Snapshot where
  tables : List DBTable
  relations : List Relation
  deriving DecidableEq, Repr

structure History where
  past : List Snapshot
  future : List Snapshot
  deriving DecidableEq, Repr

/-- The store state (the parts of `DBState` the core claims are about;
viewport and UI-only fields are omitted). -/
structure DBState where
  tables : List DBTable
  relations : List Relation
  activeLink : Option ColRef := none
  selected : List String := []
  selectedRelationId : Option String := none
  history : History := ⟨[], []⟩
  deriving DecidableEq, Repr

/-- Explicit uuid supply: the n-th draw yields `uuid_n`. -/
structure Gen where
  counter : Nat
  deriving DecidableEq, Repr

def freshId (g : Gen) : String × Gen :=
  ("uuid_" ++ toString g.counter, ⟨g.counter + 1⟩)

/-! ### String helpers used by the store (`toSnake`, `fkNameFor`, `makeFKName`) -/

def isUpperAZ (c : Char) : Bool := 65 ≤ c.toNat && c.toNat ≤ 90

/-- Step `replace(/([A-Z])/g, "_$1")`: underscore inserted before each
ASCII capital. -/
def splitUppercase (cs : List Char) : List Char :=
  cs.foldr (fun c acc => if isUpperAZ c then '_' :: c :: acc else c :: acc) []

/-- Step `replace(/[\s\-]+/g, "_")`, character-wise; runs collapse in the
next step exactly as the composite of the two source regexes does. -/
def mapSpaceHyphen (cs : List Char) : List Char :=
  cs.map (fun c => if c.isWhitespace || c = '-' then '_' else c)

/-- Step `replace(/__+/g, "_")`. -/
def collapseUnderscores : List Char → List Char
  | [] => []
  | c :: rest =>
    if c = '_' then
      match collapseUnderscores rest with
      | '_' :: tail => '_' :: tail
      | tail => '_' :: tail
    else c :: collapseUnderscores rest

/-- Step `replace(/^_+|_+$/g, "")`. -/
def stripEdgeUnderscores (cs : List Char) : List Char :=
  ((cs.dropWhile (· = '_')).reverse.dropWhile (· = '_')).reverse

def trimChars (cs : List Char) : List Char :=
  ((cs.dropWhile Char.isWhitespace).reverse.dropWhile Char.isWhitespace).reverse

/-- `toSnake` from dbStore.ts. -/
def toSnake (s : String) : String :=
  let cs := trimChars s.data
  let cs := splitUppercase cs
  let cs := mapSpaceHyphen cs
  let cs := collapseUnderscores cs
  let cs := stripEdgeUnderscores cs
  String.mk (cs.map Char.toLower)

/-- `fkNameFor` from dbStore.ts: snake_case `<table>_<column>`. -/
def fkNameFor (refTableName refColumnName : String) : String :=
  toSnake refTableName ++ "_" ++ toSnake refColumnName

/-- `makeFKName` from dbStore.ts: `<parentTableName>_id` (no snake-casing). -/
def makeFKName (parentTableName : String) : String :=
  parentTableName ++ "_id"

/-! ### History -/

def MAX_HISTORY : Nat := 60

def snapOf (s : DBState) : Snapshot := ⟨s.tables, s.relations⟩

/-- Push a snapshot on `past`, evicting the oldest entry past capacity
(`past.shift()` in the source). -/
def pushPast (past : List Snapshot) (snap : Snapshot) : List Snapshot :=
  let p := past ++ [snap]
  if MAX_HISTORY < p.length then p.drop 1 else p

/-- `recordHistory`: deep-copies `{tables, relations}` onto `past` and
clears `future`. -/
def recordHistory (s : DBState) : DBState :=
  { s with history := ⟨pushPast s.history.past (snapOf s), []⟩ }

/-- `undo`: pop `past`, push the current state on `future` (capped),
restore the popped snapshot, clear selection. -/
def undo (s : DBState) : DBState :=
  match s.history.past.getLast? with
  | none => s
  | some previous =>
    let newPast := s.history.past.dropLast
    let future := (snapOf s :: s.history.future).take MAX_HISTORY
    { s with tables := previous.tables, relations := previous.relations,
             history := ⟨newPast, future⟩, selected := [], selectedRelationId := none }

/-- `redo`: mirror of `undo`; `.slice(-MAX_HISTORY)` keeps the newest
entries, i.e. drops from the front. -/
def redo (s : DBState) : DBState :=
  match s.history.future with
  | [] => s
  | next :: rest =>
    let p := s.history.past ++ [snapOf s]
    let past := if MAX_HISTORY < p.length then p.drop (p.length - MAX_HISTORY) else p
    { s with tables := next.tables, relations := next.relations,
             history := ⟨past, rest⟩, selected := [], selectedRelationId := none }

/-! ### SchemaGraph mutators -/

def addTable (g : Gen) (x y : Int) (s : DBState) : DBState × Gen :=
  let s := recordHistory s
  let (tid, g) := freshId g
  ({ s with tables := s.tables ++
      [{ id := tid, name := "new_table", x := x, y := y, columns := [] }] }, g)

def renameTable (id name : String) (s : DBState) : DBState :=
  let s := recordHistory s
  { s with tables := s.tables.map (fun t => if t.id = id then { t with name := name } else t) }

def addColumn (g : Gen) (tableId : String) (s : DBState) : DBState × Gen :=
  let s := recordHistory s
  let (cid, g) := freshId g
  ({ s with tables := s.tables.map (fun t =>
      if t.id = tableId then
        { t with columns := t.columns ++
            [{ id := cid, name := "column_" ++ toString (t.columns.length + 1),
               type := "text", isNullable := true }] }
      else t) }, g)

/-- The dynamic `{...c, [key]: value}` update restricted to the string
fields of `Column`; other keys leave the record unchanged. -/
def setStrField (c : Column) (key value : String) : Column :=
  if key = "name" then { c with name := value }
  else if key = "type" then { c with type := value }
  else c

/-- `updateColumn`: sets the field, and when renaming a column,
propagates a derived FK name to every column referencing it. -/
def updateColumn (tableId columnId key value : String) (s : DBState) : DBState :=
  let s := recordHistory s
  let tables := s.tables.map (fun t =>
    if t.id = tableId then
      { t with columns := t.columns.map (fun c =>
          if c.id = columnId then setStrField c key value else c) }
    else t)
  if key = "name" then
    let updatedTables := tables.map (fun t =>
      { t with columns := t.columns.map (fun col =>
          match col.references with
          | none => col
          | some ref =>
            if ref.tableId = tableId ∧ ref.columnId = columnId then
              match tables.find? (fun x => decide (x.id = ref.tableId)) with
              | some refTable =>
                let refColName :=
                  match refTable.columns.find? (fun c => decide (c.id = ref.columnId)) with
                  | some c => c.name
                  | none => value
                { col with name := fkNameFor refTable.name refColName }
              | none => { col with name := fkNameFor "" value }
            else col) })
    { s with tables := updatedTables }
  else
    { s with tables := tables }

def removeColumn (tableId columnId : String) (s : DBState) : DBState :=
  let s := recordHistory s
  { s with tables := s.tables.map (fun t =>
      if t.id = tableId then { t with columns := t.columns.filter (fun c => decide (c.id ≠ columnId)) }
      else t) }

/-- `updateTablePosition` — note: the source records NO history here. -/
def updateTablePosition (id : String) (x y : Int) (s : DBState) : DBState :=
  { s with tables := s.tables.map (fun t => if t.id = id then { t with x := x, y := y } else t) }

inductive ColFlag where
  | isPrimary
  | isForeign
  | isUnique
  | isNullable
  deriving DecidableEq, Repr

def toggleFlag (c : Column) : ColFlag → Column
  | .isPrimary => { c with isPrimary := !c.isPrimary }
  | .isForeign => { c with isForeign := !c.isForeign }
  | .isUnique => { c with isUnique := !c.isUnique }
  | .isNullable => { c with isNullable := !c.isNullable }

def toggleColumnFlag (tableId columnId : String) (flag : ColFlag) (s : DBState) : DBState :=
  let s := recordHistory s
  { s with tables := s.tables.map (fun t =>
      if t.id = tableId then
        { t with columns := t.columns.map (fun c => if c.id = columnId then toggleFlag c flag else c) }
      else t) }

def startRelation (tableId columnId : String) (s : DBState) : DBState :=
  { s with activeLink := some ⟨tableId, columnId⟩ }

def cancelRelation (s : DBState) : DBState :=
  { s with activeLink := none }

def selectTable (id : String) (additive : Bool) (s : DBState) : DBState :=
  if !additive then { s with selected := [id] }
  else if id ∈ s.selected then { s with selected := s.selected.filter (fun x => decide (x ≠ id)) }
  else { s with selected := s.selected ++ [id] }

def deleteSelected (s : DBState) : DBState :=
  let s := recordHistory s
  let toDelete := s.selected
  let tables := s.tables.filter (fun t => decide (t.id ∉ toDelete))
  let relations := s.relations.filter (fun r =>
    decide (r.«from».tableId ∉ toDelete) && decide (r.«to».tableId ∉ toDelete))
  let activeLink :=
    match s.activeLink with
    | some al => if al.tableId ∈ toDelete then none else some al
    | none => none
  { s with tables := tables, relations := relations, activeLink := activeLink, selected := [] }

/-! ### RelationEngine -/

/-- The parent/child resolution of `commitRelation` (CASE 1: A has a PK
column, CASE 2: B has one, otherwise none). -/
structure ParentChild where
  parentTable : DBTable
  childTable : DBTable
  parentEndpoint : ColRef
  childEndpoint : ColRef
  parentPK : Column
  deriving DecidableEq, Repr

def resolveParent (tableA tableB : DBTable) (A B : ColRef) : Option ParentChild :=
  match tableA.columns.find? (fun c => c.isPrimary) with
  | some pkA => some ⟨tableA, tableB, A, B, pkA⟩
  | none =>
    match tableB.columns.find? (fun c => c.isPrimary) with
    | some pkB => some ⟨tableB, tableA, B, A, pkB⟩
    | none => none

/-- The `console.warn` text of the no-primary-key branch. -/
def missingPKWarning : String := "Relation requires at least one table to have a PK."

/-- `commitRelation` — the third component of the result collects the
`console.warn` messages emitted during the call. -/
def commitRelation (g : Gen) (tableId columnId : String) (s : DBState) :
    DBState × Gen × List String :=
  let s := recordHistory s
  match s.activeLink with
  | none => (s, g, [])
  | some A =>
    let B : ColRef := ⟨tableId, columnId⟩
    if A = B then ({ s with activeLink := none }, g, [])
    else
      match s.tables.find? (fun t => decide (t.id = A.tableId)),
            s.tables.find? (fun t => decide (t.id = B.tableId)) with
      | some tableA, some tableB =>
        match resolveParent tableA tableB A B with
        | none => ({ s with activeLink := none }, g, [missingPKWarning])
        | some pc =>
          let fkName := makeFKName pc.parentTable.name
          let childHasFK := pc.childTable.columns.any (fun c => decide (c.name = fkName))
          let (updatedTables, g) :=
            if childHasFK then (s.tables, g)
            else
              let (cid, g') := freshId g
              (s.tables.map (fun t =>
                if t.id = pc.childTable.id then
                  { t with columns := t.columns ++
                      [{ id := cid, name := fkName, type := pc.parentPK.type,
                         isForeign := true, isNullable := true }] }
                else t), g')
          let (rid, g) := freshId g
          ({ s with
              tables := updatedTables,
              relations := s.relations ++
                [{ id := rid, «from» := pc.parentEndpoint, «to» := pc.childEndpoint,
                   cardinality := some .oneToMany, deleteRule := some .restrict,
                   updateRule := some .cascade }],
              activeLink := none }, g, [])
      | _, _ => ({ s with activeLink := none }, g, [])

/-- `removeFKReferencing` helper of `updateRelationCardinality`: drop
every column (on every table) whose `references` equals the target. -/
def removeFKReferencing (target : ColRef) (tables : List DBTable) : List DBTable :=
  tables.map (fun t =>
    { t with columns := t.columns.filter (fun c => decide (c.references ≠ some target)) })

/-- `ensureFKOn` helper of `updateRelationCardinality`: append a fresh
FK column on the target table referencing the source column, unless one
already references it. -/
def ensureFKOn (g : Gen) (sourceRef : ColRef) (targetTableId : String)
    (tables : List DBTable) : List DBTable × Gen :=
  match tables.find? (fun x => decide (x.id = sourceRef.tableId)),
        tables.find? (fun x => decide (x.id = targetTableId)) with
  | some sourceTable, some targetTable =>
    match sourceTable.columns.find? (fun c => decide (c.id = sourceRef.columnId)) with
    | none => (tables, g)
    | some sourceCol =>
      let alreadyThere := targetTable.columns.any (fun c => decide (c.references = some sourceRef))
      if alreadyThere then (tables, g)
      else
        let candidateFkName := fkNameFor sourceTable.name sourceCol.name
        let (cid, g') := freshId g
        let fkCol : Column :=
          { id := cid, name := candidateFkName,
            type := if sourceCol.type = "" then "text" else sourceCol.type,
            isPrimary := false, isUnique := false, isNullable := true,
            isForeign := true, references := some sourceRef }
        let targetTable' := { targetTable with columns := targetTable.columns ++ [fkCol] }
        (tables.map (fun t => if t.id = targetTable'.id then targetTable' else t), g')
  | _, _ => (tables, g)

/-- JavaScript `Array.prototype.findIndex`: index of the first element
satisfying the predicate. -/
def findIndexL (p : α → Bool) : List α → Option Nat
  | [] => none
  | a :: l => if p a then some 0 else (findIndexL p l).map (· + 1)

/-- State-free core of `updateRelationCardinality`: the new
`(tables, relations)` pair and the advanced uuid supply. -/
def updateRelCardCore (g : Gen) (relationId : String) (cardinality : Cardinality)
    (reverse : Bool) (tables : List DBTable) (relations : List Relation) :
    (List DBTable × List Relation) × Gen :=
  match findIndexL (fun r => decide (r.id = relationId)) relations with
  | none => ((tables, relations), g)
  | some relIndex =>
    match relations[relIndex]? with
    | none => ((tables, relations), g)
    | some relation0 =>
      let relation1 :=
        if reverse then { relation0 with «from» := relation0.«to», «to» := relation0.«from» }
        else relation0
      let relation := { relation1 with cardinality := some cardinality }
      let relations := relations.set relIndex relation
      let tables1 := removeFKReferencing relation.«from» tables
      let tables2 := removeFKReferencing relation.«to» tables1
      match cardinality with
      | .oneToMany =>
        let (tables3, g') := ensureFKOn g relation.«from» relation.«to».tableId tables2
        ((tables3, relations), g')
      | .oneToOne =>
        let (tables3, g') := ensureFKOn g relation.«from» relation.«to».tableId tables2
        ((tables3, relations), g')
      | .manyToMany =>
        ((tables2, relations), g)

/-- `updateRelationCardinality` (`setCardinality` in the spec). -/
def updateRelationCardinality (g : Gen) (relationId : String) (cardinality : Cardinality)
    (reverse : Bool) (s : DBState) : DBState × Gen :=
  let s := recordHistory s
  let r := updateRelCardCore g relationId cardinality reverse s.tables s.relations
  ({ s with tables := r.1.1, relations := r.1.2 }, r.2)

/-- `deleteRelation`.  NOTE: the third conjunct of the `otherRelations`
filter in the source is `makeFKName(parentTable.name) === fkName`, which
compares a value with itself and is therefore always true; it is
transcribed literally. -/
def deleteRelation (relationId : String) (s : DBState) : DBState :=
  let s := recordHistory s
  match s.relations.find? (fun r => decide (r.id = relationId)) with
  | none => s
  | some rel =>
    match s.tables.find? (fun t => decide (t.id = rel.«from».tableId)),
          s.tables.find? (fun t => decide (t.id = rel.«to».tableId)) with
    | some parentTable, some childTable =>
      let fkName := makeFKName parentTable.name
      let otherRelations := s.relations.filter (fun r =>
        decide (r.id ≠ relationId) && decide (r.«to».tableId = childTable.id) &&
        decide (makeFKName parentTable.name = fkName))
      let shouldRemoveFK := otherRelations.length = 0
      let updatedTables := s.tables.map (fun t =>
        if t.id = childTable.id then
          if shouldRemoveFK then
            { t with columns := t.columns.filter (fun c => decide (c.name ≠ fkName)) }
          else t
        else t)
      { s with tables := updatedTables,
               relations := s.relations.filter (fun r => decide (r.id ≠ relationId)),
               selectedRelationId := none }
    | _, _ =>
      { s with relations := s.relations.filter (fun r => decide (r.id ≠ relationId)) }

/-- `deleteTable`. -/
def deleteTable (tableId : String) (s : DBState) : DBState :=
  let s := recordHistory s
  match s.tables.find? (fun t => decide (t.id = tableId)) with
  | none => s
  | some _ =>
    let remainingRelations := s.relations.filter (fun r =>
      decide (r.«from».tableId ≠ tableId) && decide (r.«to».tableId ≠ tableId))
    let cleanedTables := (s.tables.filter (fun t => decide (t.id ≠ tableId))).map (fun t =>
      let cols := s.relations.foldl (fun cols rel =>
        if rel.«to».tableId = t.id ∧ rel.«from».tableId = tableId then
          match s.tables.find? (fun p => decide (p.id = tableId)) with
          | some parentTable =>
            cols.filter (fun c => decide (c.name ≠ makeFKName parentTable.name))
          | none => cols
        else cols) t.columns
      { t with columns := cols })
    { s with tables := cleanedTables, relations := remainingRelations,
             selectedRelationId := none,
             selected := s.selected.filter (fun i => decide (i ≠ tableId)) }

/-! ### SQL generator (`src/lib/sqlGenerator.ts`)

String primitives are implemented over `List Char` so that closed
instances evaluate inside the kernel. -/

def startsWithL : List Char → List Char → Bool
  | [], _ => true
  | _ :: _, [] => false
  | p :: ps, c :: cs => p == c && startsWithL ps cs

def hasSubL (pat : List Char) : List Char → Bool
  | [] => startsWithL pat []
  | c :: cs => startsWithL pat (c :: cs) || hasSubL pat cs

/-- Substring test on strings. -/
def strContains (s pat : String) : Bool := hasSubL pat.data s.data

/-- Replace every occurrence of the character `c` by the string `r`. -/
def replChar (c : Char) (r : String) (s : String) : String :=
  String.join (s.data.map (fun ch => if ch == c then r else String.singleton ch))

def dquoteChar : Char := Char.ofNat 34

def squoteChar : Char := Char.ofNat 39

/-- `quoteId`: double-quote an identifier, doubling embedded quotes. -/
def quoteId (name : String) : String :=
  "\"" ++ replChar dquoteChar "\"\"" name ++ "\""

def lowerStr (s : String) : String := String.mk (s.data.map Char.toLower)

/-- `enumName`: `enum_<table>_<col>` lower-cased. -/
def enumName (table : DBTable) (colName : String) : String :=
  lowerStr ("enum_" ++ table.name ++ "_" ++ colName)

/-- `constraintName`: `<prefix>_<table>_<col>`, truncated at 60 chars,
quoted. -/
def constraintName (pre table col : String) : String :=
  let raw := pre ++ "_" ++ table ++ "_" ++ col
  quoteId (if 60 < raw.length then String.mk (raw.data.take 60) else raw)

/-- SQL single-quoted literal, embedded quotes doubled. -/
def sqlStringLit (v : String) : String :=
  let sq := String.singleton squoteChar
  sq ++ replChar squoteChar (sq ++ sq) v ++ sq

/-- Codepoint order on strings, standing in for
`String.prototype.localeCompare` (they agree on the plain ASCII
identifiers the program works with). -/
def listLt : List Char → List Char → Bool
  | [], [] => false
  | [], _ :: _ => true
  | _ :: _, [] => false
  | a :: restA, b :: restB =>
    if a.toNat < b.toNat then true
    else if b.toNat < a.toNat then false
    else listLt restA restB

def strLt (a b : String) : Bool := listLt a.data b.data

/-- Phase 1: CREATE TYPE statements, one per distinct enum name. -/
def enumStep (acc : List String × List String) (table : DBTable) (col : Column) :
    List String × List String :=
  let (processed, lns) := acc
  if col.type = "enum" then
    match col.enumValues with
    | some vs =>
      let eName := enumName table col.name
      if eName ∈ processed then acc
      else
        let values := String.intercalate ", " (vs.map sqlStringLit)
        (eName :: processed,
         lns ++ ["CREATE TYPE " ++ quoteId eName ++ " AS ENUM (" ++ values ++ ");"])
    | none => acc
  else acc

def enumPhase (tables : List DBTable) : List String :=
  (tables.foldl (fun a t => t.columns.foldl (fun a c => enumStep a t c) a) ([], [])).2

/-- Phase 2 type mapping; returns the SQL type and the (possibly
defaulted) DEFAULT value. -/
def mapColType (table : DBTable) (col : Column) : String × Option String :=
  let sqlType := lowerStr col.type
  let d := col.defaultVal
  if sqlType = "int" ∨ sqlType = "integer" then
    (if col.isPrimary then "SERIAL" else "INTEGER", d)
  else if sqlType = "uuid" then
    ("UUID", if col.isPrimary ∧ d = none then some "gen_random_uuid()" else d)
  else if sqlType = "text" ∨ sqlType = "string" then ("TEXT", d)
  else if sqlType = "bool" ∨ sqlType = "boolean" then ("BOOLEAN", d)
  else if sqlType = "date" ∨ sqlType = "datetime" then
    ("TIMESTAMPTZ", if d = none ∧ strContains col.name "created" then some "CURRENT_TIMESTAMP" else d)
  else if sqlType = "json" ∨ sqlType = "jsonb" then ("JSONB", d)
  else if sqlType = "enum" then (quoteId (enumName table col.name), d)
  else ("TEXT", d)

def colDef (table : DBTable) (col : Column) : String :=
  let (sqlType, d) := mapColType table col
  let d0 := "  " ++ quoteId col.name ++ " " ++ sqlType
  let d1 := if ¬ col.isNullable ∧ ¬ col.isPrimary then d0 ++ " NOT NULL" else d0
  let d2 := if col.isUnique then d1 ++ " UNIQUE" else d1
  match d with
  | some dv => d2 ++ " DEFAULT " ++ dv
  | none => d2

def tablePhaseFor (table : DBTable) : List String :=
  let colDefs := table.columns.map (colDef table)
  let pkCols := table.columns.filter (fun c => c.isPrimary)
  let colDefs :=
    if 0 < pkCols.length then
      colDefs ++ ["  PRIMARY KEY (" ++
        String.intercalate ", " (pkCols.map (fun c => quoteId c.name)) ++ ")"]
    else colDefs
  ["CREATE TABLE IF NOT EXISTS " ++ quoteId table.name ++ " (",
   String.intercalate ",\n" colDefs, ");", ""]

def onDelStr : Option DeleteRule → String
  | some .cascade => " ON DELETE CASCADE"
  | some .setNull => " ON DELETE SET NULL"
  | _ => ""

def onUpdStr : Option UpdateRule → String
  | some .cascade => " ON UPDATE CASCADE"
  | _ => ""

/-- Phase 3: one FK constraint and one index per non-many-to-many
relation, deduplicated by endpoint names.  NOTE (faithful to source):
the FK/index are placed on the table of the relation's `from` endpoint
(`fkTable = sourceTable`). -/
def relFKPass (tables : List DBTable) : List Relation → List String → List String × List String
  | [], _ => ([], [])
  | rel :: rest, generated =>
    if rel.cardinality = some .manyToMany then relFKPass tables rest generated
    else
      match tables.find? (fun t => decide (t.id = rel.«from».tableId)),
            tables.find? (fun t => decide (t.id = rel.«to».tableId)) with
      | some sourceTable, some targetTable =>
        match sourceTable.columns.find? (fun c => decide (c.id = rel.«from».columnId)),
              targetTable.columns.find? (fun c => decide (c.id = rel.«to».columnId)) with
        | some fkCol, some refCol =>
          let relKey := sourceTable.name ++ "." ++ fkCol.name ++ "-" ++
            targetTable.name ++ "." ++ refCol.name
          if relKey ∈ generated then relFKPass tables rest generated
          else
            let cName := constraintName "fk" sourceTable.name fkCol.name
            let stmt := "ALTER TABLE " ++ quoteId sourceTable.name ++
              " ADD CONSTRAINT " ++ cName ++
              " FOREIGN KEY (" ++ quoteId fkCol.name ++ ") REFERENCES " ++
              quoteId targetTable.name ++ "(" ++ quoteId refCol.name ++ ")" ++
              onDelStr rel.deleteRule ++ onUpdStr rel.updateRule ++ ";"
            let idxName := constraintName "idx" sourceTable.name fkCol.name
            let idx := "CREATE INDEX IF NOT EXISTS " ++ idxName ++ " ON " ++
              quoteId sourceTable.name ++ "(" ++ quoteId fkCol.name ++ ");"
            let rec0 := relFKPass tables rest (relKey :: generated)
            (stmt :: rec0.1, idx :: rec0.2)
        | _, _ => relFKPass tables rest generated
      | _, _ => relFKPass tables rest generated

/-- The five CREATE TABLE lines of one junction table. -/
def junctionBlock (joinTableName : String) (t1 t2 : DBTable) (type1 type2 : String) :
    List String :=
  ["CREATE TABLE IF NOT EXISTS " ++ quoteId joinTableName ++ " (",
   "  " ++ quoteId (t1.name ++ "_id") ++ " " ++ type1 ++ " NOT NULL,",
   "  " ++ quoteId (t2.name ++ "_id") ++ " " ++ type2 ++ " NOT NULL,",
   "  PRIMARY KEY (" ++ quoteId (t1.name ++ "_id") ++ ", " ++ quoteId (t2.name ++ "_id") ++ ")",
   ");"]

def junctionPKType (pk : Column) : String :=
  if pk.type = "int" ∨ pk.type = "integer" then "INTEGER" else "UUID"

/-- The two cascading FK constraints of one junction table. -/
def junctionFkStmts (joinTableName : String) (t1 t2 : DBTable) (pk1 pk2 : Column) :
    List String :=
  ["ALTER TABLE " ++ quoteId joinTableName ++ " ADD CONSTRAINT " ++
     constraintName "fk_junc" joinTableName t1.name ++
     " FOREIGN KEY (" ++ quoteId (t1.name ++ "_id") ++ ") REFERENCES " ++
     quoteId t1.name ++ "(" ++ quoteId pk1.name ++ ") ON DELETE CASCADE;",
   "ALTER TABLE " ++ quoteId joinTableName ++ " ADD CONSTRAINT " ++
     constraintName "fk_junc" joinTableName t2.name ++
     " FOREIGN KEY (" ++ quoteId (t2.name ++ "_id") ++ ") REFERENCES " ++
     quoteId t2.name ++ "(" ++ quoteId pk2.name ++ ") ON DELETE CASCADE;"]

/-- The single index statement of one junction table (on the second
sorted table only, mirroring the source). -/
def junctionIdxStmts (joinTableName : String) (t2 : DBTable) : List String :=
  ["CREATE INDEX IF NOT EXISTS " ++ constraintName "idx_junc" joinTableName t2.name ++
     " ON " ++ quoteId joinTableName ++ "(" ++ quoteId (t2.name ++ "_id") ++ ");"]

/-- Phase 4: junction tables for many-to-many relations.  Returns
(table lines, FK statements, index statements, emitted join names); the
name accumulator mirrors `processedJunctions`.  A pair whose canonical
name is already registered is skipped; the name is registered *before*
the PK check, and a missing PK skips the pair with no output at all. -/
def junctionPass (tables : List DBTable) :
    List Relation → List String → List String × List String × List String × List String
  | [], _ => ([], [], [], [])
  | rel :: rest, processed =>
    if rel.cardinality ≠ some .manyToMany then junctionPass tables rest processed
    else
      match tables.find? (fun t => decide (t.id = rel.«from».tableId)),
            tables.find? (fun t => decide (t.id = rel.«to».tableId)) with
      | some tA, some tB =>
        let pair := if strLt tB.name tA.name then (tB, tA) else (tA, tB)
        let t1 := pair.1
        let t2 := pair.2
        let joinTableName := "_junction_" ++ t1.name ++ "_" ++ t2.name
        if joinTableName ∈ processed then junctionPass tables rest processed
        else
          match t1.columns.find? (fun c => c.isPrimary),
                t2.columns.find? (fun c => c.isPrimary) with
          | some pk1, some pk2 =>
            let rec0 := junctionPass tables rest (joinTableName :: processed)
            (junctionBlock joinTableName t1 t2 (junctionPKType pk1) (junctionPKType pk2) ++ rec0.1,
             junctionFkStmts joinTableName t1 t2 pk1 pk2 ++ rec0.2.1,
             junctionIdxStmts joinTableName t2 ++ rec0.2.2.1,
             joinTableName :: rec0.2.2.2)
          | _, _ => junctionPass tables rest (joinTableName :: processed)
      | _, _ => junctionPass tables rest processed

def headerLines (now : String) : List String :=
  ["-- =========================================================",
   "-- Database Schema Export",
   "-- Generated at " ++ now,
   "-- =========================================================",
   ""]

/-- Output lines of `generateSQL`, exactly in the push order of the
source.  The part independent of the clock reading. -/
def bodyLines (tables : List DBTable) (relations : List Relation) : List String :=
  let enumSec := ["-- [1] Enum Types"] ++ enumPhase tables ++ [""]
  let tableSec := ["-- [2] Tables"] ++ tables.foldr (fun t acc => tablePhaseFor t ++ acc) []
  let relPassResult := relFKPass tables relations []
  let juncResult := junctionPass tables relations []
  let fkStatements := relPassResult.1 ++ juncResult.2.1
  let indexStatements := relPassResult.2 ++ juncResult.2.2.1
  enumSec ++ tableSec ++
  ["-- [3] Foreign Keys & Indices"] ++
  ["-- [4] Junction Tables (Many-to-Many)"] ++ juncResult.1 ++ [""] ++
  (if 0 < fkStatements.length then fkStatements ++ [""] else []) ++
  (if 0 < indexStatements.length then
    ["-- Indices for performance"] ++ indexStatements ++ [""] else [])

def generateSQLLines (now : String) (tables : List DBTable) (relations : List Relation) :
    List String :=
  headerLines now ++ bodyLines tables relations

/-- `generateSQL(tables, relations)`; `now` is the clock reading the
source takes via `new Date().toISOString()`. -/
def generateSQL (now : String) (tables : List DBTable) (relations : List Relation) : String :=
  String.intercalate "\n" (generateSQLLines now tables relations)

/-! ### Spec-side predicate for the undo/redo claim -/

/-- After a mutation taking `before` to `after`, `undo` restores the
pre-operation tables/relations and `redo` then restores the
post-operation ones. -/
def undoRedoOK (after before : DBState) : Prop :=
  (undo after).tables = before.tables ∧ (undo after).relations = before.relations ∧
  (redo (undo after)).tables = after.tables ∧ (redo (undo after)).relations = after.relations

/-! ### Concrete fixtures for the closed theorems -/

def usersPK : Column := { id := "c_uid", name := "id", type := "uuid", isPrimary := true }

def usersT : DBTable :=
  { id := "t_users", name := "users", columns :=
      [usersPK,
       { id := "c_uname", name := "name", type := "text", isNullable := true }] }

def postsT : DBTable :=
  { id := "t_posts", name := "posts", columns :=
      [{ id := "c_pid", name := "id", type := "uuid", isPrimary := true },
       { id := "c_puser", name := "user_id", type := "uuid", isForeign := true,
         isNullable := true, references := some ⟨"t_users", "c_uid"⟩ },
       { id := "c_ptitle", name := "title", type := "text", isNullable := true }] }

/-- The users→posts one-to-many relation, stored as `commitRelation`
stores relations: `from` is the parent endpoint (spec section 4.2). -/
def usersPostsRel : Relation :=
  { id := "r1", «from» := ⟨"t_users", "c_uid"⟩, «to» := ⟨"t_posts", "c_puser"⟩,
    cardinality := some .oneToMany, deleteRule := some .restrict,
    updateRule := some .cascade }

def c8out : String :=
  generateSQL "2024-01-01T00:00:00.000Z" [usersT, postsT] [usersPostsRel]

/-- A posts table not yet carrying any FK column. -/
def c1posts : DBTable :=
  { id := "t_posts", name := "posts", columns :=
      [{ id := "c_pid", name := "id", type := "uuid", isPrimary := true },
       { id := "c_ptitle", name := "title", type := "text", isNullable := true }] }

/-- State about to commit a users→posts relation (link started on the
users primary key, second click on posts.title). -/
def c1ex : DBState :=
  { tables := [usersT, c1posts], relations := [], activeLink := some ⟨"t_users", "c_uid"⟩ }

def c2parent : DBTable :=
  { id := "p", name := "pt",
    columns := [{ id := "pc", name := "id", type := "uuid", isPrimary := true }] }

def c2child : DBTable :=
  { id := "c", name := "ct",
    columns := [{ id := "cc", name := "note", type := "text" }] }

def c2rel : Relation :=
  { id := "r", «from» := ⟨"p", "pc"⟩, «to» := ⟨"c", "cc"⟩, cardinality := some .oneToMany }

def c2ex : DBState := { tables := [c2parent, c2child], relations := [c2rel] }

def c2onceR : DBState × Gen := updateRelationCardinality ⟨0⟩ "r" .oneToMany false c2ex

def c2twiceR : DBState × Gen :=
  updateRelationCardinality c2onceR.2 "r" .oneToMany false c2onceR.1

def c2revOnceR : DBState × Gen := updateRelationCardinality ⟨0⟩ "r" .oneToMany true c2ex

def c2revTwiceR : DBState × Gen :=
  updateRelationCardinality c2revOnceR.2 "r" .oneToMany true c2revOnceR.1

def c4ex : DBState :=
  { tables := [{ id := "t", name := "tbl", x := 0, y := 0, columns := [] }], relations := [] }

def c5tblA : DBTable :=
  { id := "a", name := "left_tbl",
    columns := [{ id := "ca", name := "v", type := "text" }] }

def c5tblB : DBTable :=
  { id := "b", name := "right_tbl",
    columns := [{ id := "cb", name := "w", type := "text" }] }

def c5ex : DBState :=
  { tables := [c5tblA, c5tblB], relations := [], activeLink := some ⟨"a", "ca"⟩ }

def c6parent1 : DBTable :=
  { id := "p1", name := "alpha",
    columns := [{ id := "p1k", name := "id", type := "uuid", isPrimary := true }] }

def c6parent2 : DBTable :=
  { id := "p2", name := "beta",
    columns := [{ id := "p2k", name := "id", type := "uuid", isPrimary := true }] }

def c6child : DBTable :=
  { id := "ch", name := "child", columns :=
      [{ id := "f1", name := "alpha_id", type := "uuid", isForeign := true, isNullable := true },
       { id := "f2", name := "beta_id", type := "uuid", isForeign := true, isNullable := true }] }

def c6relA : Relation :=
  { id := "r1", «from» := ⟨"p1", "p1k"⟩, «to» := ⟨"ch", "f1"⟩, cardinality := some .oneToMany }

def c6relB : Relation :=
  { id := "r2", «from» := ⟨"p2", "p2k"⟩, «to» := ⟨"ch", "f2"⟩, cardinality := some .oneToMany }

def c6ex : DBState := { tables := [c6parent1, c6parent2, c6child], relations := [c6relA, c6relB] }

def c7parent : DBTable :=
  { id := "p", name := "parent",
    columns := [{ id := "pk", name := "id", type := "uuid", isPrimary := true }] }

/-- A child table whose FK column references the parent but is not named
`parent_id` (such columns arise from `updateRelationCardinality`, whose
FK names are `fkNameFor`-derived, or from user renames). -/
def c7child : DBTable :=
  { id := "c", name := "child", columns :=
      [{ id := "k", name := "parent_ref", type := "uuid", isForeign := true,
         references := some ⟨"p", "pk"⟩ }] }

def c7rel : Relation :=
  { id := "r", «from» := ⟨"p", "pk"⟩, «to» := ⟨"c", "k"⟩, cardinality := some .oneToMany }

def c7ex : DBState := { tables := [c7parent, c7child], relations := [c7rel] }

def c9stuNoPK : DBTable :=
  { id := "s", name := "students",
    columns := [{ id := "sk", name := "id", type := "int" }] }

def c9cou : DBTable :=
  { id := "k", name := "courses",
    columns := [{ id := "kk", name := "id", type := "int", isPrimary := true }] }

def c9mmRel : Relation :=
  { id := "m", «from» := ⟨"s", "sk"⟩, «to» := ⟨"k", "kk"⟩, cardinality := some .manyToMany }

/-- Output for a many-to-many pair where one side lacks a primary key. -/
def c9noPkOut : String := generateSQL "T" [c9stuNoPK, c9cou] [c9mmRel]

def c9textA : DBTable :=
  { id := "a", name := "atab",
    columns := [{ id := "ak", name := "code", type := "text", isPrimary := true }] }

def c9textB : DBTable :=
  { id := "b", name := "btab",
    columns := [{ id := "bk", name := "code", type := "text", isPrimary := true }] }

def c9textRel : Relation :=
  { id := "m3", «from» := ⟨"a", "ak"⟩, «to» := ⟨"b", "bk"⟩, cardinality := some .manyToMany }

/-- Output for a many-to-many pair whose primary keys are of type text. -/
def c9textOut : String := generateSQL "T" [c9textA, c9textB] [c9textRel]

/-- Students table with an integer primary key. -/
def c9stu : DBTable :=
  { id := "s", name := "students",
    columns := [{ id := "sk", name := "id", type := "int", isPrimary := true }] }

/-- A duplicate many-to-many relation drawn in the opposite direction. -/
def c9mmRelRev : Relation :=
  { id := "m2", «from» := ⟨"k", "kk"⟩, «to» := ⟨"s", "sk"⟩, cardinality := some .manyToMany }

/-- Parent/child resolution of the `c1ex` commit: users is the parent
(its clicked column is the primary key), posts the child. -/
def c1pc : ParentChild :=
  ⟨usersT, c1posts, ⟨"t_users", "c_uid"⟩, ⟨"t_posts", "c_ptitle"⟩, usersPK⟩

/-! ## Theorems -/

/-! ### Generic history lemmas -/

theorem pushPast_getLast (l : List Snapshot) (x : Snapshot) :
    (pushPast l x).getLast? = some x := by
  unfold pushPast
  by_cases h : MAX_HISTORY < (l ++ [x]).length
  · simp only [if_pos h]
    cases l with
    | nil => simp [MAX_HISTORY] at h
    | cons a l' => simp [List.getLast?_concat]
  · simp only [if_neg h]
    exact List.getLast?_concat l

/-- Any operation that first records history and then leaves the history
untouched satisfies the undo/redo round-trip property. -/
theorem undoRedoOK_of_history (before after : DBState)
    (h : after.history = ⟨pushPast before.history.past (snapOf before), []⟩) :
    undoRedoOK after before := by
  have hlast : after.history.past.getLast? = some (snapOf before) := by
    rw [h]; exact pushPast_getLast _ _
  have hfut0 : after.history.future = [] := by rw [h]
  have h1 : (undo after).tables = before.tables := by
    unfold undo; rw [hlast]; exact rfl
  have h2 : (undo after).relations = before.relations := by
    unfold undo; rw [hlast]; exact rfl
  have hfutu : (undo after).history.future = [snapOf after] := by
    unfold undo; rw [hlast, hfut0]; exact rfl
  have h3 : (redo (undo after)).tables = after.tables := by
    unfold redo; rw [hfutu]; exact rfl
  have h4 : (redo (undo after)).relations = after.relations := by
    unfold redo; rw [hfutu]; exact rfl
  exact ⟨h1, h2, h3, h4⟩

theorem addTable_history (g : Gen) (x y : Int) (s : DBState) :
    (addTable g x y s).1.history = ⟨pushPast s.history.past (snapOf s), []⟩ := rfl

theorem renameTable_history (i n : String) (s : DBState) :
    (renameTable i n s).history = ⟨pushPast s.history.past (snapOf s), []⟩ := rfl

theorem addColumn_history (g : Gen) (tid : String) (s : DBState) :
    (addColumn g tid s).1.history = ⟨pushPast s.history.past (snapOf s), []⟩ := rfl

theorem updateColumn_history (tid cid key val : String) (s : DBState) :
    (updateColumn tid cid key val s).history = ⟨pushPast s.history.past (snapOf s), []⟩ := by
  simp only [updateColumn]
  split <;> rfl

theorem removeColumn_history (tid cid : String) (s : DBState) :
    (removeColumn tid cid s).history = ⟨pushPast s.history.past (snapOf s), []⟩ := rfl

theorem toggleColumnFlag_history (tid cid : String) (flag : ColFlag) (s : DBState) :
    (toggleColumnFlag tid cid flag s).history = ⟨pushPast s.history.past (snapOf s), []⟩ := rfl

theorem commitRelation_history (g : Gen) (tid cid : String) (s : DBState) :
    (commitRelation g tid cid s).1.history = ⟨pushPast s.history.past (snapOf s), []⟩ := by
  simp only [commitRelation]
  repeat' split <;> try rfl

theorem updateRelationCardinality_history (g : Gen) (rid : String) (c : Cardinality)
    (rev : Bool) (s : DBState) :
    (updateRelationCardinality g rid c rev s).1.history =
      ⟨pushPast s.history.past (snapOf s), []⟩ := rfl

theorem deleteRelation_history (rid : String) (s : DBState) :
    (deleteRelation rid s).history = ⟨pushPast s.history.past (snapOf s), []⟩ := by
  simp only [deleteRelation]
  repeat' split <;> try rfl

theorem deleteTable_history (tid : String) (s : DBState) :
    (deleteTable tid s).history = ⟨pushPast s.history.past (snapOf s), []⟩ := by
  simp only [deleteTable]
  repeat' split <;> try rfl

theorem deleteSelected_history (s : DBState) :
    (deleteSelected s).history = ⟨pushPast s.history.past (snapOf s), []⟩ := rfl

/-! ### C10 -/

/-- C10: when no link is pending (`activeLink` is null), `commitRelation`
returns the tables and relations unchanged: no relation and no FK column
is created. -/
theorem C10_theorem (g : Gen) (tableId columnId : String) (s : DBState)
    (h : s.activeLink = none) :
    (commitRelation g tableId columnId s).1.tables = s.tables ∧
    (commitRelation g tableId columnId s).1.relations = s.relations := by
  simp [commitRelation, recordHistory, h]

/-- C10 witness: the property at a concrete state with no pending link. -/
theorem C10_witness :
    (commitRelation ⟨0⟩ "t" "c" { tables := [], relations := [] }).1.tables = [] ∧
    (commitRelation ⟨0⟩ "t" "c" { tables := [], relations := [] }).1.relations = [] :=
  C10_theorem ⟨0⟩ "t" "c" { tables := [], relations := [] } rfl

/-! ### C5 -/

/-- C5: committing a relation between two existing tables neither of
which has a primary-key column emits the MissingPrimaryKey warning
(the `console.warn` of the source), creates no relation and no FK
column, and leaves tables and relations unchanged. -/
theorem C5_theorem (g : Gen) (tableId columnId : String) (s : DBState) (A : ColRef)
    (tA tB : DBTable)
    (hA : s.activeLink = some A)
    (hne : A ≠ ⟨tableId, columnId⟩)
    (hfA : s.tables.find? (fun t => decide (t.id = A.tableId)) = some tA)
    (hfB : s.tables.find? (fun t => decide (t.id = tableId)) = some tB)
    (hpkA : ∀ c ∈ tA.columns, c.isPrimary = false)
    (hpkB : ∀ c ∈ tB.columns, c.isPrimary = false) :
    (commitRelation g tableId columnId s).1.tables = s.tables ∧
    (commitRelation g tableId columnId s).1.relations = s.relations ∧
    (commitRelation g tableId columnId s).2.2 = [missingPKWarning] := by
  have hfa : tA.columns.find? (fun c => c.isPrimary) = none := by
    rw [List.find?_eq_none]
    intro x hx
    simp [hpkA x hx]
  have hfb : tB.columns.find? (fun c => c.isPrimary) = none := by
    rw [List.find?_eq_none]
    intro x hx
    simp [hpkB x hx]
  simp [commitRelation, recordHistory, hA, hne, hfA, hfB, resolveParent, hfa, hfb]

/-- C5 witness: the property at the two-tables-without-PK fixture. -/
theorem C5_witness :
    (commitRelation ⟨0⟩ "b" "cb" c5ex).1.tables = c5ex.tables ∧
    (commitRelation ⟨0⟩ "b" "cb" c5ex).1.relations = c5ex.relations ∧
    (commitRelation ⟨0⟩ "b" "cb" c5ex).2.2 = [missingPKWarning] :=
  C5_theorem ⟨0⟩ "b" "cb" c5ex ⟨"a", "ca"⟩ c5tblA c5tblB rfl (by decide) rfl rfl
    (by decide) (by decide)

/-! ### C3 -/

/-- C3 counterexample: the claim says two invocations of `generateSQL`
on identical graphs yield byte-identical output; the output embeds the
invocation-time clock reading (`new Date().toISOString()`), so two
invocations at different times differ even on the empty graph. -/
theorem C3_counterexample :
    generateSQL "2024-01-01T00:00:00.000Z" [] [] ≠
      generateSQL "2024-01-01T00:00:00.001Z" [] [] := by
  decide

/-- C3 (amended): the output of `generateSQL` is a deterministic
function of the graph and the clock reading; the clock only enters the
third output line (`-- Generated at <time>`), so outputs of two
invocations on the same graph agree on every line once that line is
removed. -/
theorem C3_theorem (time1 time2 : String) (tables : List DBTable) (relations : List Relation) :
    (generateSQLLines time1 tables relations).eraseIdx 2 =
      (generateSQLLines time2 tables relations).eraseIdx 2 ∧
    (generateSQLLines time1 tables relations).get? 2 = some ("-- Generated at " ++ time1) :=
  ⟨rfl, rfl⟩

/-! ### C4 -/

/-- C4 counterexample: `updateTablePosition` (moveTable) records no
history snapshot, so `undo` immediately after it does not restore the
pre-operation tables: with empty history the move survives the undo. -/
theorem C4_counterexample :
    (undo (updateTablePosition "t" 100 100 c4ex)).tables ≠ c4ex.tables := by
  decide

/-- C4 (amended): for every single mutating operation except
`updateTablePosition` — addTable, renameTable, addColumn, updateColumn,
removeColumn, toggleColumnFlag, commitRelation,
updateRelationCardinality, deleteRelation, deleteTable, deleteSelected —
`undo()` immediately afterwards restores tables and relations to their
exact pre-operation value and `redo()` then restores the post-operation
value; `updateTablePosition` records no history snapshot at all. -/
theorem C4_theorem (g : Gen) (s : DBState) (x y : Int)
    (i n tid cid key val rid : String) (flag : ColFlag) (card : Cardinality) (rev : Bool) :
    undoRedoOK (addTable g x y s).1 s ∧
    undoRedoOK (renameTable i n s) s ∧
    undoRedoOK (addColumn g tid s).1 s ∧
    undoRedoOK (updateColumn tid cid key val s) s ∧
    undoRedoOK (removeColumn tid cid s) s ∧
    undoRedoOK (toggleColumnFlag tid cid flag s) s ∧
    undoRedoOK (commitRelation g tid cid s).1 s ∧
    undoRedoOK (updateRelationCardinality g rid card rev s).1 s ∧
    undoRedoOK (deleteRelation rid s) s ∧
    undoRedoOK (deleteTable tid s) s ∧
    undoRedoOK (deleteSelected s) s ∧
    (updateTablePosition i x y s).history = s.history :=
  ⟨undoRedoOK_of_history s _ (addTable_history g x y s),
   undoRedoOK_of_history s _ (renameTable_history i n s),
   undoRedoOK_of_history s _ (addColumn_history g tid s),
   undoRedoOK_of_history s _ (updateColumn_history tid cid key val s),
   undoRedoOK_of_history s _ (removeColumn_history tid cid s),
   undoRedoOK_of_history s _ (toggleColumnFlag_history tid cid flag s),
   undoRedoOK_of_history s _ (commitRelation_history g tid cid s),
   undoRedoOK_of_history s _ (updateRelationCardinality_history g rid card rev s),
   undoRedoOK_of_history s _ (deleteRelation_history rid s),
   undoRedoOK_of_history s _ (deleteTable_history tid s),
   undoRedoOK_of_history s _ (deleteSelected_history s),
   rfl⟩

/-! ### C1 -/

/-- C1 counterexample: after a successful `commitRelation` (users has a
primary key, posts gets the FK column), a one-to-many relation with
parent endpoint users.id exists, yet NO column anywhere has
`references = {t_users, c_uid}` — the appended FK column carries no
`references` field at all, so "exactly one column whose references
equals the parent pair" fails. -/
theorem C1_counterexample :
    ((commitRelation ⟨0⟩ "t_posts" "c_ptitle" c1ex).1.relations.any (fun r =>
        decide (r.«from» = ⟨"t_users", "c_uid"⟩) &&
        decide (r.cardinality = some .oneToMany)) = true) ∧
    ((commitRelation ⟨0⟩ "t_posts" "c_ptitle" c1ex).1.tables.all (fun t =>
        t.columns.all (fun c => decide (c.references ≠ some ⟨"t_users", "c_uid"⟩))) = true) := by
  decide

/-- C1 (amended): when `commitRelation` succeeds (pending link, distinct
endpoints, both tables found, a parent side resolved through a
primary-key column, and no column with the canonical name
`<parentTable>_id` already on the child), it appends to the child table
an FK column that is nullable, typed identically to the parent key and
has `isForeign = true`, but carries NO `references` field
(`references = none`); the one-to-many relation is recorded only in the
relations array, so no column's `references` equals the parent pair. -/
theorem C1_theorem (g : Gen) (tableId columnId : String) (s : DBState) (A : ColRef)
    (tA tB : DBTable) (pc : ParentChild)
    (hA : s.activeLink = some A)
    (hne : A ≠ ⟨tableId, columnId⟩)
    (hfA : s.tables.find? (fun t => decide (t.id = A.tableId)) = some tA)
    (hfB : s.tables.find? (fun t => decide (t.id = tableId)) = some tB)
    (hpc : resolveParent tA tB A ⟨tableId, columnId⟩ = some pc)
    (hdup : pc.childTable.columns.any
      (fun c => decide (c.name = makeFKName pc.parentTable.name)) = false) :
    (commitRelation g tableId columnId s).1.tables =
      s.tables.map (fun t =>
        if t.id = pc.childTable.id then
          { t with columns := t.columns ++
              [{ id := (freshId g).1, name := makeFKName pc.parentTable.name,
                 type := pc.parentPK.type, isForeign := true, isNullable := true,
                 references := none }] }
        else t) ∧
    (commitRelation g tableId columnId s).1.relations =
      s.relations ++
        [{ id := (freshId (freshId g).2).1, «from» := pc.parentEndpoint,
           «to» := pc.childEndpoint, cardinality := some .oneToMany,
           deleteRule := some .restrict, updateRule := some .cascade }] := by
  simp [commitRelation, recordHistory, hA, hne, hfA, hfB, hpc, hdup, freshId]

/-- C1 witness: the amended success-path characterization at the
users/posts fixture. -/
theorem C1_witness :
    (commitRelation ⟨0⟩ "t_posts" "c_ptitle" c1ex).1.tables =
      c1ex.tables.map (fun t =>
        if t.id = c1pc.childTable.id then
          { t with columns := t.columns ++
              [{ id := (freshId ⟨0⟩).1, name := makeFKName c1pc.parentTable.name,
                 type := c1pc.parentPK.type, isForeign := true, isNullable := true,
                 references := none }] }
        else t) ∧
    (commitRelation ⟨0⟩ "t_posts" "c_ptitle" c1ex).1.relations =
      c1ex.relations ++
        [{ id := (freshId (freshId ⟨0⟩).2).1, «from» := c1pc.parentEndpoint,
           «to» := c1pc.childEndpoint, cardinality := some .oneToMany,
           deleteRule := some .restrict, updateRule := some .cascade }] :=
  C1_theorem ⟨0⟩ "t_posts" "c_ptitle" c1ex ⟨"t_users", "c_uid"⟩ usersT c1posts c1pc
    rfl (by decide) rfl rfl rfl rfl

/-! ### C6 -/

/-- C6: evaluation of `deleteRelation` at the failing input.  Deleting
relation r1 (parent alpha → child) leaves no surviving relation whose
parent is alpha, so by the claim the FK column `alpha_id` must be
removed; the code keeps it because its reference count is by child table
only (the name comparison in the source compares a value with itself):
another relation (beta → child) suffices to retain `alpha_id`. -/
theorem C6_bug_eval :
    ((deleteRelation "r1" c6ex).relations.all
      (fun r => decide (r.«from».tableId ≠ "p1")) = true) ∧
    ((deleteRelation "r1" c6ex).tables.any
      (fun t => decide (t.id = "ch") && t.columns.any (fun c => decide (c.name = "alpha_id"))) = true) := by
  decide

/-! ### C8 -/

set_option maxRecDepth 100000 in
/-- C8: evaluation of `generateSQL` at the users/posts scenario.  The
output emits the FK constraint and the index on the relation's `from`
side — the parent table users — producing
`ALTER TABLE "users" ... FOREIGN KEY ("id") REFERENCES "posts"("user_id")`
and an index on users(id); no `ALTER TABLE "posts"` statement and no
index on posts appear, contradicting the claimed
`ALTER TABLE posts ... FOREIGN KEY (user_id) REFERENCES users(id)` and
`CREATE INDEX ... ON posts(user_id)`. -/
theorem C8_bug_eval :
    strContains c8out "ALTER TABLE \"users\" ADD CONSTRAINT \"fk_users_id\" FOREIGN KEY (\"id\") REFERENCES \"posts\"(\"user_id\") ON UPDATE CASCADE;" = true ∧
    strContains c8out "CREATE INDEX IF NOT EXISTS \"idx_users_id\" ON \"users\"(\"id\");" = true ∧
    strContains c8out "ALTER TABLE \"posts\"" = false ∧
    strContains c8out "ON \"posts\"" = false := by
  decide

/-! ### C2 -/

theorem findIndexL_some {α : Type} (p : α → Bool) :
    ∀ (l : List α) (i : Nat), findIndexL p l = some i → ∃ a, l[i]? = some a ∧ p a = true := by
  intro l
  induction l with
  | nil => intro i h; simp [findIndexL] at h
  | cons a t ih =>
    intro i h
    unfold findIndexL at h
    by_cases hp : p a
    · rw [if_pos hp] at h
      simp only [Option.some.injEq] at h
      subst h
      exact ⟨a, by simp, hp⟩
    · rw [if_neg hp] at h
      cases hft : findIndexL p t with
      | none => rw [hft] at h; simp at h
      | some j =>
        rw [hft] at h
        simp only [Option.map_some', Option.some.injEq] at h
        subst h
        obtain ⟨b, hb, hpb⟩ := ih j hft
        exact ⟨b, by simpa using hb, hpb⟩

theorem findIndexL_set {α : Type} (p : α → Bool) (a : α) (hpa : p a = true) :
    ∀ (l : List α) (i : Nat), findIndexL p l = some i → findIndexL p (l.set i a) = some i := by
  intro l
  induction l with
  | nil => intro i h; simp [findIndexL] at h
  | cons b t ih =>
    intro i h
    unfold findIndexL at h
    by_cases hp : p b
    · rw [if_pos hp] at h
      simp only [Option.some.injEq] at h
      subst h
      show findIndexL p (a :: t) = some 0
      unfold findIndexL
      rw [if_pos hpa]
    · rw [if_neg hp] at h
      cases hft : findIndexL p t with
      | none => rw [hft] at h; simp at h
      | some j =>
        rw [hft] at h
        simp only [Option.map_some', Option.some.injEq] at h
        subst h
        show findIndexL p (b :: t.set j a) = some (j + 1)
        unfold findIndexL
        rw [if_neg hp, ih j hft]
        rfl

theorem filter_pair_idem {α : Type} (p q : α → Bool) (l : List α) :
    List.filter p (List.filter q (List.filter p (List.filter q l))) =
      List.filter p (List.filter q l) := by
  simp only [List.filter_filter]
  exact List.filter_congr (fun x _ => by cases hp : p x <;> cases hq : q x <;> simp [hp, hq])

/-- Running the clean-slate FK removal twice over the same endpoint pair
is the same as running it once. -/
theorem removeFK_pair_idem (a b : ColRef) (ts : List DBTable) :
    removeFKReferencing b (removeFKReferencing a
      (removeFKReferencing b (removeFKReferencing a ts))) =
      removeFKReferencing b (removeFKReferencing a ts) := by
  unfold removeFKReferencing
  simp only [List.map_map]
  apply List.map_congr_left
  intro t _
  simp only [Function.comp]
  congr 1
  exact filter_pair_idem _ _ _

/-- The many-to-many branch of the cardinality update is idempotent on
the `(tables, relations)` pair: no uuid is drawn and the clean-slate
removal stabilizes. -/
theorem urcCore_m2m_idem (g : Gen) (rid : String) (tables : List DBTable)
    (relations : List Relation) :
    (updateRelCardCore (updateRelCardCore g rid .manyToMany false tables relations).2 rid
       .manyToMany false
       (updateRelCardCore g rid .manyToMany false tables relations).1.1
       (updateRelCardCore g rid .manyToMany false tables relations).1.2).1 =
    (updateRelCardCore g rid .manyToMany false tables relations).1 := by
  cases hf : findIndexL (fun r => decide (r.id = rid)) relations with
  | none => simp [updateRelCardCore, hf]
  | some i =>
    obtain ⟨rel0, hget, hp⟩ := findIndexL_some _ relations i hf
    obtain ⟨hlen, -⟩ := List.getElem?_eq_some_iff.mp hget
    have h1 : updateRelCardCore g rid .manyToMany false tables relations =
        ((removeFKReferencing rel0.«to» (removeFKReferencing rel0.«from» tables),
          relations.set i { rel0 with cardinality := some .manyToMany }), g) := by
      simp [updateRelCardCore, hf, hget]
    rw [h1]
    have hf2 : findIndexL (fun r => decide (r.id = rid))
        (relations.set i { rel0 with cardinality := some .manyToMany }) = some i :=
      findIndexL_set (fun r => decide (r.id = rid))
        ({ rel0 with cardinality := some .manyToMany }) hp relations i hf
    have hget2 : (relations.set i { rel0 with cardinality := some .manyToMany })[i]? =
        some { rel0 with cardinality := some .manyToMany } :=
      List.getElem?_set_self (by simpa using hlen)
    simp only [updateRelCardCore, hf2, hget2]
    simp only [List.set_set]
    exact Prod.ext (removeFK_pair_idem _ _ _) rfl

/-- C2 counterexample: idempotence as claimed fails.  (a) With
`reverse = false` and cardinality one-to-many, the second application
removes the FK column it created and re-creates it with a freshly drawn
uuid, so the tables differ.  (b) With `reverse = true`, the second
application swaps the endpoints back, so the relations differ. -/
theorem C2_counterexample :
    c2twiceR.1.tables ≠ c2onceR.1.tables ∧
    c2revTwiceR.1.relations ≠ c2revOnceR.1.relations :=
  ⟨by decide, by decide⟩

/-- C2 (amended): `setCardinality` is idempotent when the new
cardinality is many-to-many and the reverse flag is false: applying
`updateRelationCardinality` twice with those arguments yields the same
tables and relations as applying it once (for one-to-one/one-to-many
the rebuilt FK column receives a fresh uuid, and with `reverse = true`
the endpoints swap again, so deep equality fails — see the
counterexample). -/
theorem C2_theorem (g : Gen) (relationId : String) (s : DBState) :
    (updateRelationCardinality (updateRelationCardinality g relationId .manyToMany false s).2
        relationId .manyToMany false
        (updateRelationCardinality g relationId .manyToMany false s).1).1.tables =
      (updateRelationCardinality g relationId .manyToMany false s).1.tables ∧
    (updateRelationCardinality (updateRelationCardinality g relationId .manyToMany false s).2
        relationId .manyToMany false
        (updateRelationCardinality g relationId .manyToMany false s).1).1.relations =
      (updateRelationCardinality g relationId .manyToMany false s).1.relations := by
  have h := urcCore_m2m_idem g relationId s.tables s.relations
  exact ⟨congrArg Prod.fst h, congrArg Prod.snd h⟩

/-! ### C7 -/

/-- Repeatedly filtering the same columns whenever some relation in the
list matches equals a single filter guarded by existence of a match. -/
theorem foldl_filter_if {P : Relation → Prop} [DecidablePred P] (q : Column → Bool) :
    ∀ (rels : List Relation) (cols : List Column),
      rels.foldl (fun cs rel => if P rel then cs.filter q else cs) cols =
        if ∃ r ∈ rels, P r then cols.filter q else cols := by
  intro rels
  induction rels with
  | nil => intro cols; simp
  | cons r rest ih =>
    intro cols
    by_cases hp : P r
    · simp only [List.foldl_cons, if_pos hp]
      rw [ih]
      by_cases h2 : ∃ x ∈ rest, P x
      · rw [if_pos h2, if_pos (by exact ⟨r, by simp, hp⟩), List.filter_filter]
        exact List.filter_congr (fun x _ => by cases q x <;> simp)
      · rw [if_neg h2, if_pos (by exact ⟨r, by simp, hp⟩)]
    · simp only [List.foldl_cons, if_neg hp]
      rw [ih]
      by_cases h2 : ∃ x ∈ rest, P x
      · rw [if_pos h2, if_pos (by obtain ⟨x, hx, hPx⟩ := h2; exact ⟨x, by simp [hx], hPx⟩)]
      · rw [if_neg h2, if_neg (by
          rintro ⟨x, hx, hPx⟩
          rcases List.mem_cons.mp hx with h3 | h3
          · exact hp (h3 ▸ hPx)
          · exact h2 ⟨x, h3, hPx⟩)]

/-- C7 counterexample: `deleteTable` strips columns by the derived name
`<deletedTable>_id`, not by `references`; a column whose
`references.tableId` is the deleted table but whose name differs
survives, contradicting "strips exactly those FK columns whose
references.tableId equals the deleted table". -/
theorem C7_counterexample :
    (deleteTable "p" c7ex).tables.any (fun t => t.columns.any (fun c =>
      decide (c.references = some ⟨"p", "pk"⟩))) = true := by
  decide

/-- C7 (amended): when the table exists, `deleteTable` removes it,
removes every relation with either endpoint on it, and on every
remaining table that is the `to` side of some relation whose `from` side
is the deleted table, strips every column whose NAME equals
`makeFKName` of the deleted table's name (`<deletedTable>_id`); columns
are matched by name, not by their `references` field, and tables that
are not such a `to` side keep all their columns. -/
theorem C7_theorem (tableId : String) (s : DBState) (tbl : DBTable)
    (h : s.tables.find? (fun t => decide (t.id = tableId)) = some tbl) :
    (deleteTable tableId s).relations =
      s.relations.filter (fun r =>
        decide (r.«from».tableId ≠ tableId) && decide (r.«to».tableId ≠ tableId)) ∧
    (deleteTable tableId s).tables =
      (s.tables.filter (fun t => decide (t.id ≠ tableId))).map (fun t =>
        if ∃ r ∈ s.relations, r.«to».tableId = t.id ∧ r.«from».tableId = tableId then
          { t with columns := t.columns.filter (fun c => decide (c.name ≠ makeFKName tbl.name)) }
        else t) := by
  constructor
  · simp [deleteTable, recordHistory, h]
  · simp only [deleteTable, recordHistory, h]
    apply List.map_congr_left
    intro t ht
    rw [foldl_filter_if]
    by_cases hex : ∃ r ∈ s.relations, r.«to».tableId = t.id ∧ r.«from».tableId = tableId
    · rw [if_pos hex, if_pos hex]
    · rw [if_neg hex, if_neg hex]

/-- C7 witness: the amended characterization at the parent/child
fixture. -/
theorem C7_witness :
    (deleteTable "p" c7ex).relations =
      c7ex.relations.filter (fun r =>
        decide (r.«from».tableId ≠ "p") && decide (r.«to».tableId ≠ "p")) ∧
    (deleteTable "p" c7ex).tables =
      (c7ex.tables.filter (fun t => decide (t.id ≠ "p"))).map (fun t =>
        if ∃ r ∈ c7ex.relations, r.«to».tableId = t.id ∧ r.«from».tableId = "p" then
          { t with columns := t.columns.filter (fun c => decide (c.name ≠ makeFKName c7parent.name)) }
        else t) :=
  C7_theorem "p" c7ex c7parent rfl

/-! ### C9 -/

theorem listLt_asymm : ∀ (xs ys : List Char), listLt xs ys = true → listLt ys xs = false := by
  intro xs
  induction xs with
  | nil =>
    intro ys h
    cases ys with
    | nil => simp [listLt] at h
    | cons b bs => simp [listLt]
  | cons a as ih =>
    intro ys h
    cases ys with
    | nil => simp [listLt] at h
    | cons b bs =>
      unfold listLt at h ⊢
      by_cases hab : a.toNat < b.toNat
      · rw [if_neg (by omega), if_pos hab]
      · rw [if_neg hab] at h
        by_cases hba : b.toNat < a.toNat
        · rw [if_pos hba] at h; simp at h
        · rw [if_neg hba] at h
          rw [if_neg hba, if_neg hab]
          exact ih bs h

theorem strLt_asymm (a b : String) (h : strLt a b = true) : strLt b a = false :=
  listLt_asymm _ _ h

/-- Once the canonical pair name is registered, every further
many-to-many relation between the same two tables is skipped without
output, in either direction. -/
theorem junctionPass_pair_skip (tA tB : DBTable)
    (hid : tA.id ≠ tB.id) (hlt : strLt tA.name tB.name = true) :
    ∀ (rels : List Relation) (processed : List String),
      ("_junction_" ++ tA.name ++ "_" ++ tB.name) ∈ processed →
      (∀ r ∈ rels, r.cardinality = some .manyToMany ∧
        ((r.«from».tableId = tA.id ∧ r.«to».tableId = tB.id) ∨
         (r.«from».tableId = tB.id ∧ r.«to».tableId = tA.id))) →
      junctionPass [tA, tB] rels processed = ([], [], [], []) := by
  intro rels
  induction rels with
  | nil => intro processed hmem hall; rfl
  | cons r rest ih =>
    intro processed hmem hall
    obtain ⟨hcard, hdir⟩ := hall r (by simp)
    have hrest : ∀ x ∈ rest, x.cardinality = some .manyToMany ∧
        ((x.«from».tableId = tA.id ∧ x.«to».tableId = tB.id) ∨
         (x.«from».tableId = tB.id ∧ x.«to».tableId = tA.id)) :=
      fun x hx => hall x (List.mem_cons_of_mem _ hx)
    have hasym : strLt tB.name tA.name = false := strLt_asymm _ _ hlt
    unfold junctionPass
    rw [if_neg (by simp [hcard])]
    rcases hdir with ⟨hf, ht⟩ | ⟨hf, ht⟩
    · have hfind1 : List.find? (fun t => decide (t.id = r.«from».tableId)) [tA, tB] = some tA := by
        rw [hf]; simp
      have hfind2 : List.find? (fun t => decide (t.id = r.«to».tableId)) [tA, tB] = some tB := by
        rw [ht]; simp [hid]
      simp only [hfind1, hfind2, hasym, Bool.false_eq_true, if_false]
      rw [if_pos hmem]
      exact ih processed hmem hrest
    · have hfind1 : List.find? (fun t => decide (t.id = r.«from».tableId)) [tA, tB] = some tB := by
        rw [hf]; simp [hid]
      have hfind2 : List.find? (fun t => decide (t.id = r.«to».tableId)) [tA, tB] = some tA := by
        rw [ht]; simp
      simp only [hfind1, hfind2, hlt, if_true]
      rw [if_pos hmem]
      exact ih processed hmem hrest

/-- A two-table graph with any nonempty list of many-to-many relations
between the pair (in either direction) yields exactly one junction
block, canonically named from the sorted table names, with the
INTEGER-or-UUID column typing and the cascading constraints. -/
theorem junctionPass_pair (tA tB : DBTable) (pk1 pk2 : Column)
    (hid : tA.id ≠ tB.id) (hlt : strLt tA.name tB.name = true)
    (hpk1 : tA.columns.find? (fun c => c.isPrimary) = some pk1)
    (hpk2 : tB.columns.find? (fun c => c.isPrimary) = some pk2)
    (r0 : Relation) (rels : List Relation)
    (hall : ∀ r ∈ r0 :: rels, r.cardinality = some .manyToMany ∧
      ((r.«from».tableId = tA.id ∧ r.«to».tableId = tB.id) ∨
       (r.«from».tableId = tB.id ∧ r.«to».tableId = tA.id))) :
    junctionPass [tA, tB] (r0 :: rels) [] =
      (junctionBlock ("_junction_" ++ tA.name ++ "_" ++ tB.name) tA tB
         (junctionPKType pk1) (junctionPKType pk2),
       junctionFkStmts ("_junction_" ++ tA.name ++ "_" ++ tB.name) tA tB pk1 pk2,
       junctionIdxStmts ("_junction_" ++ tA.name ++ "_" ++ tB.name) tB,
       ["_junction_" ++ tA.name ++ "_" ++ tB.name]) := by
  obtain ⟨hcard, hdir⟩ := hall r0 (by simp)
  have hrest : ∀ x ∈ rels, x.cardinality = some .manyToMany ∧
      ((x.«from».tableId = tA.id ∧ x.«to».tableId = tB.id) ∨
       (x.«from».tableId = tB.id ∧ x.«to».tableId = tA.id)) :=
    fun x hx => hall x (List.mem_cons_of_mem _ hx)
  have hasym : strLt tB.name tA.name = false := strLt_asymm _ _ hlt
  have hskip := junctionPass_pair_skip tA tB hid hlt rels
    ["_junction_" ++ tA.name ++ "_" ++ tB.name] (by simp) hrest
  unfold junctionPass
  rw [if_neg (by simp [hcard])]
  rcases hdir with ⟨hf, ht⟩ | ⟨hf, ht⟩
  · have hfind1 : List.find? (fun t => decide (t.id = r0.«from».tableId)) [tA, tB] = some tA := by
      rw [hf]; simp
    have hfind2 : List.find? (fun t => decide (t.id = r0.«to».tableId)) [tA, tB] = some tB := by
      rw [ht]; simp [hid]
    simp only [hfind1, hfind2, hasym, Bool.false_eq_true, if_false]
    rw [if_neg (by simp)]
    simp only [hpk1, hpk2, hskip, List.append_nil]
  · have hfind1 : List.find? (fun t => decide (t.id = r0.«from».tableId)) [tA, tB] = some tB := by
      rw [hf]; simp [hid]
    have hfind2 : List.find? (fun t => decide (t.id = r0.«to».tableId)) [tA, tB] = some tA := by
      rw [ht]; simp
    simp only [hfind1, hfind2, hlt, if_true]
    rw [if_neg (by simp)]
    simp only [hpk1, hpk2, hskip, List.append_nil]

/-- When either side of the pair lacks a primary-key column the junction
pass emits nothing at all for the pair: no table lines, no constraints,
no index and, in particular, no warning comment. -/
theorem junctionPass_pair_noPK (tA tB : DBTable)
    (hid : tA.id ≠ tB.id) (hlt : strLt tA.name tB.name = true)
    (hnopk : tA.columns.find? (fun c => c.isPrimary) = none ∨
             tB.columns.find? (fun c => c.isPrimary) = none)
    (r0 : Relation) (rels : List Relation)
    (hall : ∀ r ∈ r0 :: rels, r.cardinality = some .manyToMany ∧
      ((r.«from».tableId = tA.id ∧ r.«to».tableId = tB.id) ∨
       (r.«from».tableId = tB.id ∧ r.«to».tableId = tA.id))) :
    junctionPass [tA, tB] (r0 :: rels) [] = ([], [], [], []) := by
  obtain ⟨hcard, hdir⟩ := hall r0 (by simp)
  have hrest : ∀ x ∈ rels, x.cardinality = some .manyToMany ∧
      ((x.«from».tableId = tA.id ∧ x.«to».tableId = tB.id) ∨
       (x.«from».tableId = tB.id ∧ x.«to».tableId = tA.id)) :=
    fun x hx => hall x (List.mem_cons_of_mem _ hx)
  have hasym : strLt tB.name tA.name = false := strLt_asymm _ _ hlt
  have hskip := junctionPass_pair_skip tA tB hid hlt rels
    ["_junction_" ++ tA.name ++ "_" ++ tB.name] (by simp) hrest
  unfold junctionPass
  rw [if_neg (by simp [hcard])]
  rcases hdir with ⟨hf, ht⟩ | ⟨hf, ht⟩
  · have hfind1 : List.find? (fun t => decide (t.id = r0.«from».tableId)) [tA, tB] = some tA := by
      rw [hf]; simp
    have hfind2 : List.find? (fun t => decide (t.id = r0.«to».tableId)) [tA, tB] = some tB := by
      rw [ht]; simp [hid]
    simp only [hfind1, hfind2, hasym, Bool.false_eq_true, if_false]
    rw [if_neg (by simp)]
    rcases hnopk with h1 | h2
    · simp only [h1, hskip]
    · cases hfA : tA.columns.find? (fun c => c.isPrimary) with
      | none => simp only [hfA, hskip]
      | some pk => simp only [hfA, h2, hskip]
  · have hfind1 : List.find? (fun t => decide (t.id = r0.«from».tableId)) [tA, tB] = some tB := by
      rw [hf]; simp [hid]
    have hfind2 : List.find? (fun t => decide (t.id = r0.«to».tableId)) [tA, tB] = some tA := by
      rw [ht]; simp
    simp only [hfind1, hfind2, hlt, if_true]
    rw [if_neg (by simp)]
    rcases hnopk with h1 | h2
    · simp only [h1, hskip]
    · cases hfA : tA.columns.find? (fun c => c.isPrimary) with
      | none => simp only [hfA, hskip]
      | some pk => simp only [hfA, h2, hskip]

/-- The join-table names emitted by the junction pass never repeat:
`processedJunctions` registers each canonical name before emission and
every later relation mapping to a registered name is skipped. -/
theorem junctionPass_emitted_nodup (tables : List DBTable) :
    ∀ (rels : List Relation) (processed : List String),
      (∀ n ∈ (junctionPass tables rels processed).2.2.2, n ∉ processed) ∧
      (junctionPass tables rels processed).2.2.2.Nodup := by
  intro rels
  induction rels with
  | nil => intro processed; exact ⟨by simp [junctionPass], by simp [junctionPass]⟩
  | cons rel rest ih =>
    intro processed
    unfold junctionPass
    split
    · exact ih processed
    · split
      · split
        all_goals
          dsimp only
          split
          · exact ih processed
          · rename_i hnotin
            split
            · constructor
              · intro n hn
                rcases List.mem_cons.mp hn with h | h
                · subst h; exact hnotin
                · have h1 := (ih _).1 n h
                  intro hmem
                  exact h1 (List.mem_cons_of_mem _ hmem)
              · refine List.nodup_cons.mpr ⟨?_, (ih _).2⟩
                intro hmem
                exact (ih _).1 _ hmem (List.mem_cons_self _ _)
            · constructor
              · intro n hn
                have h1 := (ih _).1 n hn
                intro hmem
                exact h1 (List.mem_cons_of_mem _ hmem)
              · exact (ih _).2
      · exact ih processed

set_option maxRecDepth 100000 in
/-- C9 counterexample: (a) for a many-to-many pair where one side lacks
a primary key, the output contains no junction table AND no warning
comment — the claimed "skipped with a warning comment" fails, the skip
is silent; (b) for a pair whose primary keys are of type text, the
junction FK columns are typed UUID, not after the primary keys (the
table phase maps text to TEXT). -/
theorem C9_counterexample :
    strContains c9noPkOut "_junction_" = false ∧
    strContains c9noPkOut "WARNING" = false ∧
    strContains c9noPkOut "warning" = false ∧
    strContains c9textOut "\"atab_id\" UUID NOT NULL," = true :=
  ⟨by decide, by decide, by decide, by decide⟩

/-- C9 (amended): junction synthesis emits, per canonical name
(participant table names sorted, joined as `_junction_<a>_<b>`), at most
one junction table over all graphs (the emitted names are
duplicate-free); for a two-table graph with both primary keys present
and any nonempty set of many-to-many relations between the pair, in
either direction, exactly one junction block is emitted — two NOT NULL
FK columns typed INTEGER when the corresponding primary key is integer
and UUID otherwise, a composite primary key, two cascading FK
constraints and one index; when either side lacks a primary key the
pair is skipped silently, with no output and no warning comment. -/
theorem C9_theorem :
    (∀ (tables : List DBTable) (rels : List Relation),
      (junctionPass tables rels []).2.2.2.Nodup) ∧
    (∀ (tA tB : DBTable) (pk1 pk2 : Column), tA.id ≠ tB.id →
      strLt tA.name tB.name = true →
      tA.columns.find? (fun c => c.isPrimary) = some pk1 →
      tB.columns.find? (fun c => c.isPrimary) = some pk2 →
      ∀ (r0 : Relation) (rels : List Relation),
        (∀ r ∈ r0 :: rels, r.cardinality = some .manyToMany ∧
          ((r.«from».tableId = tA.id ∧ r.«to».tableId = tB.id) ∨
           (r.«from».tableId = tB.id ∧ r.«to».tableId = tA.id))) →
        junctionPass [tA, tB] (r0 :: rels) [] =
          (junctionBlock ("_junction_" ++ tA.name ++ "_" ++ tB.name) tA tB
             (junctionPKType pk1) (junctionPKType pk2),
           junctionFkStmts ("_junction_" ++ tA.name ++ "_" ++ tB.name) tA tB pk1 pk2,
           junctionIdxStmts ("_junction_" ++ tA.name ++ "_" ++ tB.name) tB,
           ["_junction_" ++ tA.name ++ "_" ++ tB.name])) ∧
    (∀ (tA tB : DBTable), tA.id ≠ tB.id →
      strLt tA.name tB.name = true →
      (tA.columns.find? (fun c => c.isPrimary) = none ∨
       tB.columns.find? (fun c => c.isPrimary) = none) →
      ∀ (r0 : Relation) (rels : List Relation),
        (∀ r ∈ r0 :: rels, r.cardinality = some .manyToMany ∧
          ((r.«from».tableId = tA.id ∧ r.«to».tableId = tB.id) ∨
           (r.«from».tableId = tB.id ∧ r.«to».tableId = tA.id))) →
        junctionPass [tA, tB] (r0 :: rels) [] = ([], [], [], [])) :=
  ⟨fun tables rels => (junctionPass_emitted_nodup tables rels []).2,
   fun tA tB pk1 pk2 hid hlt hpk1 hpk2 r0 rels hall =>
     junctionPass_pair tA tB pk1 pk2 hid hlt hpk1 hpk2 r0 rels hall,
   fun tA tB hid hlt hnopk r0 rels hall =>
     junctionPass_pair_noPK tA tB hid hlt hnopk r0 rels hall⟩

/-- C9 witness: the amended statement at concrete graphs — duplicate
many-to-many relations between students and courses (both integer PKs,
opposite directions) produce exactly one junction block, and the no-PK
variant produces nothing. -/
theorem C9_witness :
    junctionPass [c9cou, c9stu] [c9mmRel, c9mmRelRev] [] =
      (junctionBlock "_junction_courses_students" c9cou c9stu
         (junctionPKType { id := "kk", name := "id", type := "int", isPrimary := true })
         (junctionPKType { id := "sk", name := "id", type := "int", isPrimary := true }),
       junctionFkStmts "_junction_courses_students" c9cou c9stu
         { id := "kk", name := "id", type := "int", isPrimary := true }
         { id := "sk", name := "id", type := "int", isPrimary := true },
       junctionIdxStmts "_junction_courses_students" c9stu,
       ["_junction_courses_students"]) ∧
    junctionPass [c9cou, c9stuNoPK] [c9mmRel] [] = ([], [], [], []) :=
  ⟨C9_theorem.2.1 c9cou c9stu
      { id := "kk", name := "id", type := "int", isPrimary := true }
      { id := "sk", name := "id", type := "int", isPrimary := true }
      (by decide) (by decide) rfl rfl c9mmRel [c9mmRelRev] (by decide),
   C9_theorem.2.2 c9cou c9stuNoPK (by decide) (by decide) (Or.inr rfl)
      c9mmRel [] (by decide)⟩

end DB
